import Mathlib

/-!
Shallow embedding of the collaborative-editing OT client
(`src/examples/react/components/editor/ot/client.ts`).

The client is an event-emitting class `OTClient` holding a mutable state
(roster of members, current member, lifecycle status string, socket/closed
flags, heartbeat record).  We embed each method as a pure function from the
state (plus the inputs the method reads) to the new state paired with the
list of observable effects the method performs, in order: events emitted to
the application, socket operations, timer operations, calls into the
external synchronization engine.
-/

namespace OTClientModel

/-- `Member` mirrors the exported `Member` type of the source:
`{ id: number; avatar: string; name: string; iid: number; uuid: string; color?: string }`. -/
structure Member where
  id : Int
  avatar : String
  name : String
  iid : Int
  uuid : String
  color : Option String
deriving Repr, DecidableEq

/-- The `STATUS` constant object: lifecycle status strings. -/
def STATUS.init : String := "init"

def STATUS.loaded : String := "loaded"

def STATUS.active : String := "active"

def STATUS.exit : String := "exit"

def STATUS.error : String := "error"

/-- The `ERROR_CODE` constant object (string codes). -/
def ERROR_CODE.INIT_FAILED : String := "INIT_FAILED"

def ERROR_CODE.SAVE_FAILED : String := "SAVE_FAILED"

def ERROR_CODE.PUBLISH_FAILED : String := "PUBLISH_FAILED"

def ERROR_CODE.DISCONNECTED : String := "DISCONNECTED"

def ERROR_CODE.CONNECTION_ERROR : String := "CONNECTION_ERROR"

def ERROR_CODE.COLLAB_DOC_ERROR : String := "COLLAB_DOC_ERROR"

/-- `ERROR_CODE.STATUS_CODE.TIMEOUT`. -/
def STATUS_CODE.TIMEOUT : Int := 4001

/-- `ERROR_CODE.STATUS_CODE.FORCE_DISCONNECTED`. -/
def STATUS_CODE.FORCE_DISCONNECTED : Int := 4002

/-- The `ERROR_LEVEL` constant object. -/
def ERROR_LEVEL.FATAL : String := "FATAL"

def ERROR_LEVEL.WARNING : String := "WARNING"

def ERROR_LEVEL.NOTICE : String := "NOTICE"

/-- The exported `ERROR` record type.  The optional underlying transport
`ErrorEvent` is opaque to the client; we keep it as an optional string. -/
structure ERROR where
  code : String
  level : String
  message : String
  error : Option String
deriving Repr, DecidableEq

/-- Events the client emits to the embedding application (the `EVENT`
constants plus the literal `ready` event of `load`).  A JavaScript object
payload is embedded as an association list from key strings to values, so
that the exact keys the code writes are part of the model (the
`statusChange` payload keys in particular). -/
inductive Event where
  | statusChange (payload : List (String × Option String))
  | error (e : ERROR)
  | membersChange (members : List Member)
  | message (type : String) (body : String)
  | inactive
  | ready (member : Option Member)
deriving Repr, DecidableEq

/-- Observable effects a method performs besides returning: emitted events,
socket operations, timers, and mirror calls into `engine.ot`. -/
inductive Action where
  | emit (e : Event)
  | closeSocket (code : Int) (reason : String)
  | clearHeartbeatTimeout
  | sendHeartbeat (time : Int)
  | scheduleMembersChange (delayMs : Nat)
  | engineSetMembers (data : List Member)
  | engineAddMember (data : Member)
  | engineRemoveMember (data : Member)
  | engineSetCurrentMember (data : Member)
  | loadDoc
deriving Repr, DecidableEq

/-- The mutable fields of the `OTClient` instance that the modelled methods
read or write.  `heartbeat` keeps only the `datetime` timestamp of the
heartbeat record (milliseconds); the timer handle itself is abstracted,
its clearing shows up as the `clearHeartbeatTimeout` action. -/
structure ClientState where
  members : List Member
  current : Option Member
  status : Option String
  isClosed : Bool
  heartbeat : Option Int
  hasSocket : Bool
deriving Repr, DecidableEq

/-- The state at construction time: `members = []`, everything else unset,
`isClosed = true`. -/
def initialState : ClientState :=
  { members := []
    current := none
    status := none
    isClosed := true
    heartbeat := none
    hasSocket := false }

/-- A member of `engine.ot.getMembers()`: `normalizeMembers` reads only the
`uuid` and `color` fields of those records. -/
structure OtUser where
  uuid : String
  color : Option String
deriving Repr, DecidableEq

/-- The `colorMap` built by `normalizeMembers`: `users.forEach((user) =>
colorMap[user.uuid] = user.color)` followed by the read
`colorMap[member.uuid]`.  Later assignments overwrite earlier ones, so the
lookup finds the last user with the given uuid; an absent key and a stored
`undefined` color both read back as `undefined`. -/
def colorMapLookup (users : List OtUser) (uuid : String) : Option String :=
  match users.reverse.find? (fun u => u.uuid == uuid) with
  | some u => u.color
  | none => none

/-- One iteration of the `for (let i = this.members.length; i > 0; i--)`
loop of `normalizeMembers`, given the members already reversed: skip a
member whose `id` is already in `memberMap`, otherwise push a clone with
`color` replaced by the colorMap entry and record the `id`. -/
def normalizeLoop (users : List OtUser) : List Member → List Int → List Member
  | [], _ => []
  | m :: rest, seen =>
    if m.id ∈ seen then
      normalizeLoop users rest seen
    else
      { m with color := colorMapLookup users m.uuid } :: normalizeLoop users rest (m.id :: seen)

/-- `normalizeMembers()`: walk the roster from the most recently added entry
to the least recently added, keep the first occurrence of each `id` seen in
that reverse scan, and annotate each kept clone with the engine's color for
its `uuid`. -/
def normalizeMembers (users : List OtUser) (members : List Member) : List Member :=
  normalizeLoop users members.reverse []

/-- The body of the `memberList.forEach` callback of `addMembers`: push the
member only when no entry of the roster built so far has the same `id`. -/
def addOne (acc : List Member) (member : Member) : List Member :=
  if acc.any (fun m => member.id == m.id) then acc else acc ++ [member]

/-- The roster mutation of `addMembers(memberList)`. -/
def addMembersRoster (members memberList : List Member) : List Member :=
  memberList.foldl addOne members

/-- `addMembers(memberList)`: mutate the roster, then unconditionally
`setTimeout(() => this.emit(EVENT.membersChange, this.normalizeMembers()), 1000)`. -/
def addMembers (st : ClientState) (memberList : List Member) :
    ClientState × List Action :=
  ({ st with members := addMembersRoster st.members memberList },
    [Action.scheduleMembersChange 1000])

/-- The roster mutation of `removeMember(member)`: keep the users whose
`uuid` differs from the removed member's. -/
def removeMemberRoster (members : List Member) (member : Member) : List Member :=
  members.filter (fun user => user.uuid ≠ member.uuid)

/-- `removeMember(member)`: filter the roster by uuid and synchronously emit
`membersChange` with `normalizeMembers()` of the new roster. -/
def removeMember (users : List OtUser) (st : ClientState) (member : Member) :
    ClientState × List Action :=
  let ms := removeMemberRoster st.members member
  ({ st with members := ms },
    [Action.emit (Event.membersChange (normalizeMembers users ms))])

/-- `transmit(status)`: remember the previous status, set the new one, and
emit `statusChange` with the object literal the source writes, key for key:
`\x7b form: prevStatus, to: status \x7d` (the first key is spelled `form`
in the source). -/
def transmit (st : ClientState) (status : String) : ClientState × List Action :=
  ({ st with status := some status },
    [Action.emit (Event.statusChange [("form", st.status), ("to", some status)])])

/-- `onError(error)`: emit the `error` event and set the status to
`STATUS.error` (directly, without `transmit`). -/
def onError (st : ClientState) (error : ERROR) : ClientState × List Action :=
  ({ st with status := some STATUS.error },
    [Action.emit (Event.error error)])

/-- The error record the `close` listener raises: FATAL `DISCONNECTED`. -/
def disconnectedError : ERROR :=
  { code := ERROR_CODE.DISCONNECTED
    level := ERROR_LEVEL.FATAL
    message := "网络连接异常，无法继续编辑"
    error := none }

/-- The socket `close` listener installed by `connect`: if the status is not
`STATUS.exit`, raise a FATAL `DISCONNECTED` error via `onError`. -/
def handleClose (st : ClientState) : ClientState × List Action :=
  if st.status ≠ some STATUS.exit then
    onError st disconnectedError
  else
    (st, [])

/-- `disconnect()`: when a socket exists, close it with the
`FORCE_DISCONNECTED` status code and reason, and clear the heartbeat timer
when a heartbeat record exists. -/
def disconnect (st : ClientState) : ClientState × List Action :=
  if st.hasSocket then
    (st,
      Action.closeSocket STATUS_CODE.FORCE_DISCONNECTED "FORCE_DISCONNECTED" ::
        (if st.heartbeat.isSome then [Action.clearHeartbeatTimeout] else []))
  else
    (st, [])

/-- `exit()`: when the status is not already `STATUS.exit`, transition to
`STATUS.exit` via `transmit` and then `disconnect`; otherwise do nothing. -/
def exit (st : ClientState) : ClientState × List Action :=
  if st.status ≠ some STATUS.exit then
    let s1 := transmit st STATUS.exit
    let s2 := disconnect s1.1
    (s2.1, s1.2 ++ s2.2)
  else
    (st, [])

/-- The guard of the heartbeat tick: `!this.heartbeat || now.getTime() -
this.heartbeat.datetime.getTime() >= millisecond`. -/
def heartbeatDue (heartbeat : Option Int) (now millisecond : Int) : Bool :=
  match heartbeat with
  | none => true
  | some datetime => millisecond ≤ now - datetime

/-- The body of the `setTimeout` callback of `checkHeartbeat`: when the
socket is not closed and the heartbeat is due, send a `heartbeat` control
message stamped with the current time and record the current time as the
heartbeat datetime; otherwise only the timer-handle bookkeeping happens.
Either way the callback reschedules itself (`this.checkHeartbeat`), which
the surrounding recurring-timer machinery owns and is not an action here. -/
def heartbeatTick (st : ClientState) (now millisecond : Int) :
    ClientState × List Action :=
  if !st.isClosed && heartbeatDue st.heartbeat now millisecond then
    ({ st with heartbeat := some now }, [Action.sendHeartbeat now])
  else
    (st, [])

/-- An inbound control envelope, one constructor per `action` tag the
message listener of `connect` compares against; `other` stands for any
unrecognized tag.  The `broadcast` payload destructures into
`\x7b uuid, body, type \x7d`; the opaque body is kept as a string. -/
inductive InMessage where
  | members (data : List Member)
  | join (data : Member)
  | leave (data : Member)
  | ready (data : Member)
  | broadcast (uuid : String) (type : String) (body : String)
  | heartbeat
  | other
deriving Repr, DecidableEq

/-- The guard of the `broadcast` branch: `uuid !== this.current?.uuid`.
When no current member is set, `this.current?.uuid` is `undefined` and a
string is never strictly equal to `undefined`. -/
def broadcastEmits (current : Option Member) (uuid : String) : Bool :=
  match current with
  | none => true
  | some c => uuid ≠ c.uuid

/-- The `message` listener installed by `connect`, dispatching on the
`action` tag of the parsed envelope. -/
def handleMessage (users : List OtUser) (st : ClientState) (msg : InMessage) :
    ClientState × List Action :=
  match msg with
  | InMessage.members data =>
    let s1 := addMembers st data
    (s1.1, s1.2 ++ [Action.engineSetMembers data])
  | InMessage.join data =>
    let s1 := addMembers st [data]
    (s1.1, s1.2 ++ [Action.engineAddMember data])
  | InMessage.leave data =>
    let s1 := removeMember users st data
    (s1.1, Action.engineRemoveMember data :: s1.2)
  | InMessage.ready data =>
    ({ st with current := some data },
      [Action.engineSetCurrentMember data, Action.loadDoc])
  | InMessage.broadcast uuid type body =>
    if broadcastEmits st.current uuid then
      (st, [Action.emit (Event.message type body)])
    else
      (st, [])
  | InMessage.heartbeat => (st, [])
  | InMessage.other => (st, [])

/-! ## Helper lemmas -/

lemma addOne_id_nodup (acc : List Member) (m : Member)
    (h : (acc.map Member.id).Nodup) : ((addOne acc m).map Member.id).Nodup := by
  unfold addOne
  split
  · exact h
  · rename_i hany
    rw [List.map_append, List.nodup_append]
    refine ⟨h, by simp, ?_⟩
    intro a ha hb
    simp only [List.map_cons, List.map_nil, List.mem_singleton] at hb
    subst hb
    apply hany
    simp only [List.any_eq_true]
    rcases List.mem_map.mp ha with ⟨x, hx, hxa⟩
    exact ⟨x, hx, by simp [hxa]⟩

lemma addMembersRoster_id_nodup (memberList : List Member) :
    ∀ acc : List Member, (acc.map Member.id).Nodup →
      ((addMembersRoster acc memberList).map Member.id).Nodup := by
  induction memberList with
  | nil => intro acc h; exact h
  | cons m rest ih =>
    intro acc h
    exact ih (addOne acc m) (addOne_id_nodup acc m h)

lemma addMembers_fold_members_nodup (calls : List (List Member)) :
    ∀ st : ClientState, (st.members.map Member.id).Nodup →
      ((calls.foldl (fun s l => (addMembers s l).1) st).members.map Member.id).Nodup := by
  induction calls with
  | nil => intro st h; exact h
  | cons l rest ih =>
    intro st h
    exact ih _ (addMembersRoster_id_nodup l st.members h)

/-! ## Claim theorems -/

/-- Claim C1: starting from the freshly constructed client (empty roster),
after any sequence of `addMembers` calls with arbitrary member lists, the
internal roster never holds two entries with the same `id`. -/
theorem addMembers_sequence_ids_nodup (calls : List (List Member)) :
    ((calls.foldl (fun s l => (addMembers s l).1) initialState).members.map Member.id).Nodup :=
  addMembers_fold_members_nodup calls initialState (by simp [initialState])

/-- Claim C3: adding `[A, A']` with `A.id = A'.id` to a roster holding no
entry with that `id` appends exactly `A` (all of its fields); `A'` is
discarded and, whenever it differs from `A`, is absent from the roster. -/
theorem addMembers_first_entry_wins (st : ClientState) (A A' : Member)
    (hid : A.id = A'.id) (hfresh : ∀ m ∈ st.members, m.id ≠ A.id) :
    (addMembers st [A, A']).1.members = st.members ++ [A] ∧
      (A' ≠ A → A' ∉ (addMembers st [A, A']).1.members) := by
  have h1 : addOne st.members A = st.members ++ [A] := by
    unfold addOne
    rw [if_neg]
    simp only [List.any_eq_true, beq_iff_eq, not_exists, not_and]
    intro m hm
    exact fun he => hfresh m hm he.symm
  have h2 : addOne (st.members ++ [A]) A' = st.members ++ [A] := by
    unfold addOne
    rw [if_pos]
    simp only [List.any_eq_true, beq_iff_eq]
    exact ⟨A, by simp, hid.symm⟩
  have hmain : (addMembers st [A, A']).1.members = st.members ++ [A] := by
    show addMembersRoster st.members [A, A'] = st.members ++ [A]
    unfold addMembersRoster
    simp only [List.foldl_cons, List.foldl_nil, h1, h2]
  refine ⟨hmain, ?_⟩
  intro hne hmem
  rw [hmain] at hmem
  rcases List.mem_append.mp hmem with h | h
  · exact hfresh A' h hid.symm
  · exact hne (List.mem_singleton.mp h)

/-- Claim C3 witness at a concrete input. -/
theorem addMembers_first_entry_wins_witness :
    (addMembers initialState
        [{ id := 1, avatar := "a", name := "Alice", iid := 7, uuid := "u1", color := none },
          { id := 1, avatar := "b", name := "Alina", iid := 8, uuid := "u2", color := none }]).1.members =
        initialState.members ++
          [{ id := 1, avatar := "a", name := "Alice", iid := 7, uuid := "u1", color := none }] ∧
      (({ id := 1, avatar := "b", name := "Alina", iid := 8, uuid := "u2", color := none } : Member) ≠
          { id := 1, avatar := "a", name := "Alice", iid := 7, uuid := "u1", color := none } →
        ({ id := 1, avatar := "b", name := "Alina", iid := 8, uuid := "u2", color := none } : Member) ∉
          (addMembers initialState
            [{ id := 1, avatar := "a", name := "Alice", iid := 7, uuid := "u1", color := none },
              { id := 1, avatar := "b", name := "Alina", iid := 8, uuid := "u2", color := none }]).1.members) :=
  addMembers_first_entry_wins initialState
    { id := 1, avatar := "a", name := "Alice", iid := 7, uuid := "u1", color := none }
    { id := 1, avatar := "b", name := "Alina", iid := 8, uuid := "u2", color := none }
    rfl (by simp [initialState])

/-- Claim C10: `addMembers` unconditionally schedules a `membersChange`
emission after the 1000 ms delay, for every state and every input list —
in particular also when the roster is left unchanged by the call. -/
theorem addMembers_always_schedules (st : ClientState) (memberList : List Member) :
    (addMembers st memberList).2 = [Action.scheduleMembersChange 1000] :=
  rfl

/-- Claim C2: `transmit` always emits exactly one `statusChange` event, whose
payload maps the key `form` (as spelled in the source) to the previous status
and `to` to the new status; the key `from` is absent from the payload.  This
holds for every state and every status, including when the new status equals
the previous one. -/
theorem transmit_payload_key_form (st : ClientState) (s : String) :
    (transmit st s).2 =
        [Action.emit (Event.statusChange [("form", st.status), ("to", some s)])] ∧
      ([("form", st.status), ("to", some s)] : List (String × Option String)).lookup "from" =
        none ∧
      ([("form", st.status), ("to", some s)] : List (String × Option String)).lookup "to" =
        some (some s) ∧
      ([("form", st.status), ("to", some s)] : List (String × Option String)).lookup "form" =
        some st.status :=
  ⟨rfl, rfl, rfl, rfl⟩

lemma normalize_pair_eq (users : List OtUser) (X Y : Member) (hid : X.id = Y.id) :
    normalizeMembers users [X, Y] = [{ Y with color := colorMapLookup users Y.uuid }] := by
  unfold normalizeMembers
  simp [normalizeLoop, hid]

/-- Claim C4: `normalizeMembers` deduplicates by `id` with precedence
opposite to insertion: on an internal roster `[X, Y]` with `X.id = Y.id`,
the normalized output is exactly the clone of `Y` (the most recently added
entry) with its `color` re-read from the engine's color map, so every output
entry carries `Y`'s fields, and none carries `X`'s uuid when the uuids
differ. -/
theorem normalizeMembers_read_time_last_wins (users : List OtUser) (X Y : Member)
    (hid : X.id = Y.id) :
    normalizeMembers users [X, Y] = [{ Y with color := colorMapLookup users Y.uuid }] ∧
      (∀ m ∈ normalizeMembers users [X, Y],
        m.id = Y.id ∧ m.uuid = Y.uuid ∧ m.name = Y.name ∧ m.avatar = Y.avatar ∧ m.iid = Y.iid) ∧
      (X.uuid ≠ Y.uuid → ∀ m ∈ normalizeMembers users [X, Y], m.uuid ≠ X.uuid) := by
  have hmain := normalize_pair_eq users X Y hid
  refine ⟨hmain, ?_, ?_⟩
  · intro m hm
    rw [hmain, List.mem_singleton] at hm
    subst hm
    simp
  · intro hne m hm
    rw [hmain, List.mem_singleton] at hm
    subst hm
    simpa using fun h => hne h.symm

/-- Claim C4 witness at a concrete input. -/
theorem normalizeMembers_read_time_last_wins_witness :
    normalizeMembers []
        [{ id := 1, avatar := "a", name := "X", iid := 0, uuid := "ux", color := none },
          { id := 1, avatar := "b", name := "Y", iid := 0, uuid := "uy", color := none }] =
      [{ ({ id := 1, avatar := "b", name := "Y", iid := 0, uuid := "uy", color := none } : Member) with
          color := colorMapLookup [] "uy" }] ∧
      (∀ m ∈ normalizeMembers []
          [{ id := 1, avatar := "a", name := "X", iid := 0, uuid := "ux", color := none },
            { id := 1, avatar := "b", name := "Y", iid := 0, uuid := "uy", color := none }],
        m.id = 1 ∧ m.uuid = "uy" ∧ m.name = "Y" ∧ m.avatar = "b" ∧ m.iid = 0) ∧
      (("ux" : String) ≠ "uy" → ∀ m ∈ normalizeMembers []
          [{ id := 1, avatar := "a", name := "X", iid := 0, uuid := "ux", color := none },
            { id := 1, avatar := "b", name := "Y", iid := 0, uuid := "uy", color := none }],
        m.uuid ≠ "ux") :=
  normalizeMembers_read_time_last_wins []
    { id := 1, avatar := "a", name := "X", iid := 0, uuid := "ux", color := none }
    { id := 1, avatar := "b", name := "Y", iid := 0, uuid := "uy", color := none } rfl

lemma normalizeLoop_uuid_mem (users : List OtUser) :
    ∀ (l : List Member) (seen : List Int) (m : Member),
      m ∈ normalizeLoop users l seen → m.uuid ∈ l.map Member.uuid := by
  intro l
  induction l with
  | nil => intro seen m h; simp [normalizeLoop] at h
  | cons x rest ih =>
    intro seen m h
    unfold normalizeLoop at h
    split at h
    · exact List.mem_cons_of_mem _ (ih _ m h)
    · rcases List.mem_cons.mp h with h1 | h2
      · subst h1; simp
      · exact List.mem_cons_of_mem _ (ih _ m h2)

/-- Claim C5: after `removeMember p`, every entry of the `normalizeMembers`
output has a uuid different from `p.uuid`, for every roster state and every
engine member list. -/
theorem removeMember_then_normalize_excludes_uuid (users : List OtUser)
    (st : ClientState) (p : Member) (m : Member)
    (hm : m ∈ normalizeMembers users (removeMember users st p).1.members) :
    m.uuid ≠ p.uuid := by
  have h1 : m.uuid ∈ ((removeMember users st p).1.members).reverse.map Member.uuid :=
    normalizeLoop_uuid_mem users _ [] m hm
  have h2 : (removeMember users st p).1.members = removeMemberRoster st.members p := rfl
  rw [h2] at h1
  rcases List.mem_map.mp h1 with ⟨x, hx, hxu⟩
  rw [List.mem_reverse] at hx
  have hxf := List.of_mem_filter hx
  rw [← hxu]
  simpa using hxf

/-- Claim C5 witness at a concrete input. -/
theorem removeMember_then_normalize_excludes_uuid_witness :
    ({ id := 1, avatar := "a", name := "A", iid := 0, uuid := "u1", color := none } : Member).uuid ≠
      ({ id := 2, avatar := "b", name := "B", iid := 0, uuid := "u2", color := none } : Member).uuid :=
  removeMember_then_normalize_excludes_uuid []
    { initialState with members :=
        [{ id := 1, avatar := "a", name := "A", iid := 0, uuid := "u1", color := none },
          { id := 2, avatar := "b", name := "B", iid := 0, uuid := "u2", color := none }] }
    { id := 2, avatar := "b", name := "B", iid := 0, uuid := "u2", color := none }
    { id := 1, avatar := "a", name := "A", iid := 0, uuid := "u1", color := none }
    (by decide)

lemma disconnect_fst (st : ClientState) : (disconnect st).1 = st := by
  unfold disconnect
  split <;> rfl

/-- Recognizes the socket-close teardown action. -/
def isCloseAction : Action → Bool
  | Action.closeSocket _ _ => true
  | _ => false

/-- Recognizes the heartbeat-timer-clear teardown action. -/
def isClearHeartbeatAction : Action → Bool
  | Action.clearHeartbeatTimeout => true
  | _ => false

/-- Recognizes the emission of a `statusChange` event. -/
def isStatusChangeAction : Action → Bool
  | Action.emit (Event.statusChange _) => true
  | _ => false

lemma exit_fst_status (st : ClientState) :
    (OTClientModel.exit st).1.status = some STATUS.exit := by
  unfold OTClientModel.exit
  split
  · show (disconnect (transmit st STATUS.exit).1).1.status = some STATUS.exit
    rw [disconnect_fst]
    rfl
  · rename_i hcond
    rw [not_not] at hcond
    exact hcond

lemma exit_when_exit (st : ClientState) (h : st.status = some STATUS.exit) :
    OTClientModel.exit st = (st, []) := by
  unfold OTClientModel.exit
  rw [if_neg]
  rw [not_not]
  exact h

lemma disconnect_countP_close (st : ClientState) :
    ((disconnect st).2).countP isCloseAction ≤ 1 := by
  unfold disconnect
  split
  · show (Action.closeSocket STATUS_CODE.FORCE_DISCONNECTED "FORCE_DISCONNECTED" ::
      (if st.heartbeat.isSome then [Action.clearHeartbeatTimeout] else [])).countP
        isCloseAction ≤ 1
    split <;> simp [isCloseAction, List.countP_cons, List.countP_nil]
  · simp

lemma disconnect_countP_clear (st : ClientState) :
    ((disconnect st).2).countP isClearHeartbeatAction ≤ 1 := by
  unfold disconnect
  split
  · show (Action.closeSocket STATUS_CODE.FORCE_DISCONNECTED "FORCE_DISCONNECTED" ::
      (if st.heartbeat.isSome then [Action.clearHeartbeatTimeout] else [])).countP
        isClearHeartbeatAction ≤ 1
    split <;> simp [isClearHeartbeatAction, List.countP_cons, List.countP_nil]
  · simp

lemma disconnect_countP_status (st : ClientState) :
    ((disconnect st).2).countP isStatusChangeAction = 0 := by
  unfold disconnect
  split
  · show (Action.closeSocket STATUS_CODE.FORCE_DISCONNECTED "FORCE_DISCONNECTED" ::
      (if st.heartbeat.isSome then [Action.clearHeartbeatTimeout] else [])).countP
        isStatusChangeAction = 0
    split <;> simp [isStatusChangeAction, List.countP_cons, List.countP_nil]
  · simp

lemma exit_countP_close (st : ClientState) :
    ((OTClientModel.exit st).2).countP isCloseAction ≤ 1 := by
  unfold OTClientModel.exit
  split
  · show ((transmit st STATUS.exit).2 ++
      (disconnect (transmit st STATUS.exit).1).2).countP isCloseAction ≤ 1
    rw [List.countP_append]
    have h1 : ((transmit st STATUS.exit).2).countP isCloseAction = 0 := by
      simp [transmit, isCloseAction, List.countP_cons, List.countP_nil]
    rw [h1]
    simpa using disconnect_countP_close (transmit st STATUS.exit).1
  · simp

lemma exit_countP_clear (st : ClientState) :
    ((OTClientModel.exit st).2).countP isClearHeartbeatAction ≤ 1 := by
  unfold OTClientModel.exit
  split
  · show ((transmit st STATUS.exit).2 ++
      (disconnect (transmit st STATUS.exit).1).2).countP isClearHeartbeatAction ≤ 1
    rw [List.countP_append]
    have h1 : ((transmit st STATUS.exit).2).countP isClearHeartbeatAction = 0 := by
      simp [transmit, isClearHeartbeatAction, List.countP_cons, List.countP_nil]
    rw [h1]
    simpa using disconnect_countP_clear (transmit st STATUS.exit).1
  · simp

lemma exit_countP_status (st : ClientState) :
    ((OTClientModel.exit st).2).countP isStatusChangeAction ≤ 1 := by
  unfold OTClientModel.exit
  split
  · show ((transmit st STATUS.exit).2 ++
      (disconnect (transmit st STATUS.exit).1).2).countP isStatusChangeAction ≤ 1
    rw [List.countP_append]
    have h1 : ((transmit st STATUS.exit).2).countP isStatusChangeAction = 1 := by
      simp [transmit, isStatusChangeAction, List.countP_cons, List.countP_nil]
    rw [h1, disconnect_countP_status]
  · simp

/-- Claim C6: `exit` is idempotent.  A second `exit` right after a first one
emits nothing and leaves the state exactly as the first left it, and across
both calls the teardown side effects happen at most once: at most one socket
close, at most one heartbeat-timer clear, and at most one `statusChange`
emission (the transition to `exit`). -/
theorem exit_teardown_at_most_once (st : ClientState) :
    (OTClientModel.exit (OTClientModel.exit st).1).2 = [] ∧
      (OTClientModel.exit (OTClientModel.exit st).1).1 = (OTClientModel.exit st).1 ∧
      ((OTClientModel.exit st).2 ++
          (OTClientModel.exit (OTClientModel.exit st).1).2).countP isCloseAction ≤ 1 ∧
      ((OTClientModel.exit st).2 ++
          (OTClientModel.exit (OTClientModel.exit st).1).2).countP isClearHeartbeatAction ≤ 1 ∧
      ((OTClientModel.exit st).2 ++
          (OTClientModel.exit (OTClientModel.exit st).1).2).countP isStatusChangeAction ≤ 1 := by
  have h2 := exit_when_exit (OTClientModel.exit st).1 (exit_fst_status st)
  rw [h2]
  refine ⟨rfl, rfl, ?_, ?_, ?_⟩ <;> rw [List.append_nil]
  · exact exit_countP_close st
  · exact exit_countP_clear st
  · exact exit_countP_status st

/-- The concrete current member used in the claim C7 witness. -/
def mCurrent : Member :=
  { id := 9, avatar := "c", name := "Me", iid := 0, uuid := "me", color := none }

/-- Claim C7: an inbound `broadcast` envelope whose `uuid` equals the current
member's uuid produces no event at all, and one whose `uuid` differs produces
exactly one `message` event carrying the original `type` and `body`. -/
theorem broadcast_origin_filtering (users : List OtUser) (st : ClientState)
    (c : Member) (uuid type body : String) (hc : st.current = some c) :
    (uuid = c.uuid →
        (handleMessage users st (InMessage.broadcast uuid type body)).2 = []) ∧
      (uuid ≠ c.uuid →
        (handleMessage users st (InMessage.broadcast uuid type body)).2 =
          [Action.emit (Event.message type body)]) := by
  constructor
  · intro he
    simp [handleMessage, broadcastEmits, hc, he]
  · intro hne
    simp [handleMessage, broadcastEmits, hc, hne]

/-- Claim C7 witness at a concrete input. -/
theorem broadcast_origin_filtering_witness :
    (("other" : String) = mCurrent.uuid →
        (handleMessage [] { initialState with current := some mCurrent }
            (InMessage.broadcast "other" "ping" "hello")).2 = []) ∧
      (("other" : String) ≠ mCurrent.uuid →
        (handleMessage [] { initialState with current := some mCurrent }
            (InMessage.broadcast "other" "ping" "hello")).2 =
          [Action.emit (Event.message "ping" "hello")]) :=
  broadcast_origin_filtering [] { initialState with current := some mCurrent }
    mCurrent "other" "ping" "hello" rfl

/-- Claim C8: the `close` listener raises an error (which is FATAL
`DISCONNECTED`) exactly when the status is not `exit` at close time; and
`onError`, the single raise site, always emits exactly one `error` event
and leaves the session status at `error`. -/
theorem close_raises_iff_not_exit (st : ClientState) (e : ERROR) :
    ((∃ err : ERROR, Action.emit (Event.error err) ∈ (handleClose st).2 ∧
          err.code = ERROR_CODE.DISCONNECTED ∧ err.level = ERROR_LEVEL.FATAL) ↔
        st.status ≠ some STATUS.exit) ∧
      (onError st e).2 = [Action.emit (Event.error e)] ∧
      (onError st e).1.status = some STATUS.error := by
  refine ⟨?_, rfl, rfl⟩
  by_cases h : st.status = some STATUS.exit
  · simp [handleClose, h]
  · constructor
    · intro _
      exact h
    · intro _
      refine ⟨disconnectedError, ?_, rfl, rfl⟩
      simp [handleClose, h, onError]

/-- Claim C9: a heartbeat tick taken while the socket is open and no
heartbeat record exists sends the heartbeat control message stamped with the
current time and records that time as the last-sent timestamp. -/
theorem heartbeat_first_tick_sends (st : ClientState) (now millisecond : Int)
    (hopen : st.isClosed = false) (hnone : st.heartbeat = none) :
    (heartbeatTick st now millisecond).1.heartbeat = some now ∧
      (heartbeatTick st now millisecond).2 = [Action.sendHeartbeat now] := by
  constructor <;> simp [heartbeatTick, heartbeatDue, hopen, hnone]

/-- Claim C9 witness at a concrete input. -/
theorem heartbeat_first_tick_sends_witness :
    (heartbeatTick { initialState with isClosed := false } 5000 30000).1.heartbeat = some 5000 ∧
      (heartbeatTick { initialState with isClosed := false } 5000 30000).2 =
        [Action.sendHeartbeat 5000] :=
  heartbeat_first_tick_sends { initialState with isClosed := false } 5000 30000 rfl rfl

end OTClientModel
